import Mathlib

/-!
# Shallow embedding of `chicago_crimes_dashboard.py`

This file embeds the data-processing core of the Chicago Crimes dashboard:
the loader/normalizer (`load_data`, column normalization, timestamp-driven
row dropping, derived calendar fields) and the period aggregator
(period filters, KPI counts and rates, mode of crime type, unique location
count, weekday time series, geographic sampling).

Conventions of the embedding:
* A calendar date is an `Int`: the number of days since 1969-12-29, which is
  a Monday, so `weekday d = d % 7` agrees with Python's `date.weekday()`
  (Monday = 0, ..., Sunday = 6).
* pandas `NaN` / missing values are `Option.none`; string-valued columns
  (`ARREST`, `DOMESTIC`, `LOCATION DESCRIPTION`) are `Option String`,
  coordinates are `Option ℚ`.
* `pd.to_datetime(col, errors='coerce')` is embedded by giving each raw row
  an `occurred_at : Option Timestamp` — the result of the permissive parse,
  `none` on parse failure (the parser itself is library code).
* Rates are rationals (`ℚ`); Python floats on these small integer
  ratios behave like exact rationals for the properties proved here.
-/

namespace ChicagoCrimes

/-- Day names as produced by pandas `dt.day_name()`, indexed Monday = 0. -/
def dayNames : List String :=
  ["Monday", "Tuesday", "Wednesday", "Thursday", "Friday", "Saturday", "Sunday"]

/-- Python `date.weekday()`: Monday = 0, ..., Sunday = 6.
Dates are days since 1969-12-29 (a Monday). -/
def weekday (d : Int) : Int := d % 7

/-- `dt.day_name()` of a date. -/
def dayName (d : Int) : String := dayNames.getD (weekday d).toNat "Monday"

/-- Line 84: `week_start = selected_date - timedelta(days=selected_date.weekday())`. -/
def week_start (anchor : Int) : Int := anchor - weekday anchor

/-- Line 85: `week_end = week_start + timedelta(days=6)`. -/
def week_end (anchor : Int) : Int := week_start anchor + 6

/-- A parsed occurrence timestamp: calendar date plus hour of day.
This is the output of the permissive datetime parse of `DATE OF OCCURRENCE`. -/
structure Timestamp where
  day : Int
  hourOfDay : Nat
  deriving Repr, DecidableEq, Inhabited

/-- `dt.to_period('M').astype(str)` = "YYYY-MM": civil year and month from a
day count. `d` is days since 1969-12-29; `d - 3` is days since 1970-01-01.
The arithmetic is the standard days-to-civil conversion; all intermediate
dividends are nonnegative, where `Int./` (Euclidean) agrees with C division. -/
def civilYearMonth (d : Int) : Int × Int :=
  let z := (d - 3) + 719468
  let era := (if 0 ≤ z then z else z - 146096) / 146097
  let doe := z - era * 146097
  let yoe := (doe - doe / 1460 + doe / 36524 - doe / 146096) / 365
  let y := yoe + era * 400
  let doy := doe - (365 * yoe + yoe / 4 - yoe / 100)
  let mp := (5 * doy + 2) / 153
  let m := if mp < 10 then mp + 3 else mp - 9
  (if m ≤ 2 then y + 1 else y, m)

/-- Zero-padded two-digit rendering of a month number. -/
def pad2 (n : Int) : String :=
  if n < 10 then "0" ++ toString n else toString n

/-- Line 37: the `month` derived field, a "YYYY-MM" token. -/
def monthToken (d : Int) : String :=
  let ym := civilYearMonth d
  toString ym.1 ++ "-" ++ pad2 ym.2

/-- One row of the working dataset after `load_data`: original columns used by
the dashboard plus the derived fields of lines 34-37. -/
structure Row where
  date : Int
  hour : Nat
  day_of_week : String
  month : String
  primary_description : String
  location_description : Option String
  arrest : Option String
  domestic : Option String
  ward : Option String
  latitude : Option ℚ
  longitude : Option ℚ
  deriving Repr, DecidableEq, Inhabited

/-- Line 88: weekly filter `df[(df['date'] >= week_start) & (df['date'] <= week_end)]`. -/
def weeklyFilter (anchor : Int) (rows : List Row) : List Row :=
  rows.filter (fun r => week_start anchor ≤ r.date && r.date ≤ week_end anchor)

/-- Line 69: daily filter `df[df['date'] == selected_date]`. -/
def dailyFilter (selected : Int) (rows : List Row) : List Row :=
  rows.filter (fun r => r.date == selected)

/-- Line 101: monthly filter `df[df['month'] == selected_month]`. -/
def monthlyFilter (selected : String) (rows : List Row) : List Row :=
  rows.filter (fun r => r.month == selected)

/-- Line 94: `months = sorted(df['month'].unique(), reverse=True)` — the
options offered by the month selectbox: distinct month tokens, sorted
descending. -/
def monthOptions (rows : List Row) : List String :=
  ((rows.map (·.month)).dedup).insertionSort (fun a b => b ≤ a)

/-- Line 111: `total_crimes = len(filtered_df)`. -/
def total_crimes (rows : List Row) : Nat := rows.length

/-- Line 112: `arrests_made = len(filtered_df[filtered_df['ARREST'] == 'Y'])`. -/
def arrests_made (rows : List Row) : Nat :=
  (rows.filter (fun r => r.arrest == some "Y")).length

/-- Line 113: `arrest_rate = (arrests_made / total_crimes * 100) if total_crimes > 0 else 0`. -/
def arrest_rate (rows : List Row) : ℚ :=
  if 0 < total_crimes rows then
    (arrests_made rows : ℚ) / (total_crimes rows : ℚ) * 100
  else 0

/-- Line 114: `domestic_crimes = len(filtered_df[filtered_df['DOMESTIC'] == 'Y'])`. -/
def domestic_crimes (rows : List Row) : Nat :=
  (rows.filter (fun r => r.domestic == some "Y")).length

/-- Line 115: `domestic_rate = (domestic_crimes / total_crimes * 100) if total_crimes > 0 else 0`. -/
def domestic_rate (rows : List Row) : ℚ :=
  if 0 < total_crimes rows then
    (domestic_crimes rows : ℚ) / (total_crimes rows : ℚ) * 100
  else 0

/-- Pick, from the candidate list, a value of maximal multiplicity in `l`
(the head of `value_counts()`, i.e. the index of the descending count sort).
`b` is the best candidate so far. -/
def bestBy (l : List String) (b : String) : List String → String
  | [] => b
  | v :: vs => bestBy l (if l.count b < l.count v then v else b) vs

/-- Lines 118-121: `filtered_df['PRIMARY DESCRIPTION'].value_counts().index[0]`
when the period is nonempty, else the `"N/A"` sentinel. -/
def most_common_crime (rows : List Row) : String :=
  let l := rows.map (·.primary_description)
  bestBy l (l.headD "N/A") l

/-- Line 153: `filtered_df['LOCATION DESCRIPTION'].nunique()` — distinct
non-null location descriptions (pandas `nunique` skips NaN). -/
def unique_locations (rows : List Row) : Nat :=
  ((rows.filterMap (·.location_description)).dedup).length

/-- Line 228: `filtered_df.dropna(subset=['LATITUDE', 'LONGITUDE'])`. -/
def geoEligible (rows : List Row) : List Row :=
  rows.filter (fun r => r.latitude.isSome && r.longitude.isSome)

/-- One step of a linear congruential generator (a fixed, deterministic
pseudo-random source standing in for numpy's seeded generator). -/
def lcg (s : Nat) : Nat := (1103515245 * s + 12345) % 2147483648

/-- Draw `n` elements without replacement, LCG state `s` driving the choice
of index at each step. Stops early when the pool empties. -/
def sampleAux : Nat → Nat → List Row → List Row
  | 0, _, _ => []
  | _ + 1, _, [] => []
  | n + 1, s, x :: xs =>
    let i := lcg s % (x :: xs).length
    (x :: xs).getD i x :: sampleAux n (lcg s) ((x :: xs).eraseIdx i)

/-- `DataFrame.sample(n, random_state=42)`: a deterministic, seeded,
without-replacement sample of `n` rows (the exact permutation drawn by
pandas is library-internal; what the dashboard relies on — and what is
embedded — is a fixed-seed deterministic selection of `n` distinct rows). -/
def sample42 (n : Nat) (l : List Row) : List Row := sampleAux n 42 l

/-- Lines 228-233: the map subset — rows with both coordinates, sampled down
to 5000 with fixed seed 42 when larger than 5000. -/
def map_df (rows : List Row) : List Row :=
  let elig := geoEligible rows
  if 5000 < elig.length then sample42 5000 elig else elig

/-- Line 185: `day_order = ['Monday', ..., 'Sunday']`. -/
def day_order : List String := dayNames

/-- Index of a weekday name in the canonical Monday→Sunday order
(the categorical code of line 187). -/
def dayIdx (d : String) : Nat := day_order.indexOf d

/-- Comparison used to sort weekday buckets: canonical position. -/
def dayLE (a b : String × Nat) : Prop := dayIdx a.1 ≤ dayIdx b.1

instance : DecidableRel dayLE := fun _ _ => Nat.decLe _ _

instance : IsTotal (String × Nat) dayLE := ⟨fun _ _ => Nat.le_total _ _⟩

instance : IsTrans (String × Nat) dayLE := ⟨fun _ _ _ => Nat.le_trans⟩

/-- Lines 186-188: group by `day_of_week` into `(bucket, count)` pairs, then
sort the buckets by their categorical position in `day_order`. -/
def day_data (rows : List Row) : List (String × Nat) :=
  (((rows.map (·.day_of_week)).dedup).map
    (fun d => (d, (rows.filter (fun r => r.day_of_week == d)).length))).insertionSort dayLE

/-! ## Loader (lines 17-39) -/

/-- A raw CSV row: the result of reading plus the permissive datetime parse of
`DATE OF OCCURRENCE` (`pd.to_datetime(..., errors='coerce')` gives `none` on
parse failure). Other columns are carried through verbatim. -/
structure RawRow where
  occurred_at : Option Timestamp
  primary_description : String
  location_description : Option String
  arrest : Option String
  domestic : Option String
  ward : Option String
  latitude : Option ℚ
  longitude : Option ℚ
  deriving Repr, DecidableEq, Inhabited

/-- A readable CSV file: its header row and its data rows. -/
structure RawFile where
  cols : List String
  rows : List RawRow
  deriving Repr, DecidableEq, Inhabited

/-- Structural worker for whitespace collapsing: the flag records whether the
previous character was whitespace, i.e. whether the current run has already
emitted its single space. -/
def collapseWsAux : Bool → List Char → List Char
  | _, [] => []
  | inRun, c :: rest =>
    if c.isWhitespace then
      if inRun then collapseWsAux true rest
      else ' ' :: collapseWsAux true rest
    else c :: collapseWsAux false rest

/-- Collapse every maximal run of whitespace to a single space
(the `str.replace(r'\s+', ' ', regex=True)` of line 25). -/
def collapseWs (l : List Char) : List Char := collapseWsAux false l

/-- Strip leading and trailing whitespace (`str.strip()` of line 25). -/
def stripWs (l : List Char) : List Char :=
  ((l.dropWhile Char.isWhitespace).reverse.dropWhile Char.isWhitespace).reverse

/-- Line 25: column-name normalization — strip, then collapse internal
whitespace runs to single spaces. -/
def normalizeName (s : String) : String := ⟨collapseWs (stripWs s.data)⟩

/-- Line 28: the timestamp column looked up after normalization. -/
def date_col : String := "DATE OF OCCURRENCE"

/-- Lines 34-37: build a working row from a parsed timestamp and the raw
columns — the derived fields are pure functions of the timestamp. -/
def mkRow (t : Timestamp) (r : RawRow) : Row :=
  { date := t.day
    hour := t.hourOfDay
    day_of_week := dayName t.day
    month := monthToken t.day
    primary_description := r.primary_description
    location_description := r.location_description
    arrest := r.arrest
    domestic := r.domestic
    ward := r.ward
    latitude := r.latitude
    longitude := r.longitude }

/-- Lines 17-39 (`load_data`) with the top-level `except` of line 466: reading
a missing/unreadable file propagates the pandas error (`none` input); a file
whose normalized header lacks `DATE OF OCCURRENCE` raises a `KeyError` at
line 29; otherwise the rows whose timestamp parsed survive (line 32 drops the
rest) and derived fields are attached. Column names are normalized exactly
once, here; duplicates arising from normalization are kept as duplicate
labels. -/
def load_data (source : Option RawFile) : Except String (List String × List Row) :=
  match source with
  | none => .error "FileNotFoundError"
  | some f =>
    let cols := f.cols.map normalizeName
    if date_col ∈ cols then
      .ok (cols, f.rows.filterMap (fun r => r.occurred_at.map (fun t => mkRow t r)))
    else
      .error "KeyError"

/-! ## Concrete rows used by witnesses and counterexamples -/

/-- A concrete working row: 1970-01-01 (a Thursday), THEFT, no arrest. -/
def sampleRow : Row :=
  { date := 3
    hour := 8
    day_of_week := dayName 3
    month := monthToken 3
    primary_description := "THEFT"
    location_description := some "STREET"
    arrest := some "N"
    domestic := some "N"
    ward := some "1"
    latitude := some 41
    longitude := some (-87) }

/-- Two rows, exactly one with an arrest. -/
def pairRows : List Row :=
  [{ sampleRow with arrest := some "Y" }, sampleRow]

/-- Rows observed on Sunday and Monday, deliberately listed Sunday first:
dates 13 (a Sunday), 7 (a Monday) and 6 (a Sunday). -/
def twoDayRows : List Row :=
  [{ sampleRow with date := 13, day_of_week := dayName 13 },
   { sampleRow with date := 7, day_of_week := dayName 7 },
   { sampleRow with date := 6, day_of_week := dayName 6 }]


/-! ## Concrete raw files used by the loader claims -/

/-- A raw row whose timestamp parses to 1970-01-01 08:00. -/
def goodRaw : RawRow :=
  { occurred_at := some ⟨3, 8⟩
    primary_description := "THEFT"
    location_description := some "STREET"
    arrest := some "N"
    domestic := some "N"
    ward := some "1"
    latitude := some 41
    longitude := some (-87) }

/-- A raw row whose timestamp fails to parse. -/
def badRaw : RawRow := { goodRaw with occurred_at := none }

/-- A readable file with a sloppy (but normalizable) timestamp header, one
parsable row and one unparsable row. -/
def goodFile : RawFile :=
  { cols := ["DATE  OF   OCCURRENCE", "PRIMARY DESCRIPTION"]
    rows := [goodRaw, badRaw] }

/-- A readable, structurally valid file in which no timestamp parses. -/
def noParseFile : RawFile :=
  { cols := ["DATE OF OCCURRENCE"], rows := [badRaw] }

/-- A readable file whose header lacks the timestamp column. -/
def noDateColFile : RawFile := { cols := ["DATE"], rows := [goodRaw] }

/-- A readable file with two headers that collide after normalization. -/
def dupFile : RawFile :=
  { cols := ["A  B", "A B", "DATE OF OCCURRENCE"], rows := [] }


/-! ## C2: weekly period resolution -/

/-- C2: weekly resolution sets `week_start` to the anchor minus its weekday
offset (Monday = 0), the resolved window is the inclusive 7-day range
`[week_start, week_start + 6]` containing the anchor, the week start is
always a Monday, and a Wednesday anchor (offset 2) lands on the Monday two
days earlier; the weekly filter keeps exactly the rows in that range. -/
theorem weekly_resolution_correct (anchor : Int) (rows : List Row) :
    week_start anchor = anchor - weekday anchor ∧
    weekday (week_start anchor) = 0 ∧
    week_start anchor ≤ anchor ∧ anchor ≤ week_end anchor ∧
    week_end anchor - week_start anchor + 1 = 7 ∧
    (weekday anchor = 2 → anchor - week_start anchor = 2) ∧
    (∀ r : Row, r ∈ weeklyFilter anchor rows ↔
      r ∈ rows ∧ week_start anchor ≤ r.date ∧ r.date ≤ week_start anchor + 6) := by
  refine ⟨rfl, ?_, ?_, ?_, ?_, ?_, ?_⟩
  · unfold weekday week_start weekday
    omega
  · unfold week_start weekday
    omega
  · unfold week_end week_start weekday
    omega
  · unfold week_end week_start
    omega
  · unfold week_start
    intro h
    omega
  · intro r
    simp [weeklyFilter, List.mem_filter, week_end, and_assoc]

/-- Witness for C2 at the concrete Wednesday anchor 9 (1970-01-07):
its week start is day 7, a Monday two days earlier. -/
theorem weekly_resolution_correct_witness :
    weekday 9 = 2 ∧ (9 : Int) - week_start 9 = 2 ∧ week_start 9 = 7 := by
  refine ⟨by decide, (weekly_resolution_correct 9 []).2.2.2.2.2.1 (by decide), by decide⟩

/-! ## C1: rates are zero-guarded, but they are percentages -/

/-- C1 counterexample: with one arrest among two rows the code yields an
arrest rate of `50` (a percentage), not `arrestCount/totalCount = 1/2` as
the claim words the formula. -/
theorem rate_formula_counterexample :
    arrest_rate pairRows = 50 ∧
    (arrests_made pairRows : ℚ) / (total_crimes pairRows : ℚ) = 1 / 2 ∧
    arrest_rate pairRows ≠ (arrests_made pairRows : ℚ) / (total_crimes pairRows : ℚ) := by
  have ha : arrests_made pairRows = 1 := by decide
  have ht : total_crimes pairRows = 2 := by decide
  refine ⟨?_, ?_, ?_⟩ <;> simp [arrest_rate, ha, ht] <;> norm_num

/-- C1 amended: the rates are `count/total * 100` (percentages), and both
rates are exactly `0` on a zero-count period — the division is guarded, so
no division error and no NaN can reach the caller. -/
theorem rates_zero_guarded (rows : List Row) :
    (total_crimes rows = 0 → arrest_rate rows = 0 ∧ domestic_rate rows = 0) ∧
    (0 < total_crimes rows →
      arrest_rate rows * (total_crimes rows : ℚ) = (arrests_made rows : ℚ) * 100 ∧
      domestic_rate rows * (total_crimes rows : ℚ) = (domestic_crimes rows : ℚ) * 100) := by
  constructor
  · intro h
    simp [arrest_rate, domestic_rate, h]
  · intro h
    have ht : ((total_crimes rows : ℚ)) ≠ 0 :=
      Nat.cast_ne_zero.mpr (Nat.pos_iff_ne_zero.mp h)
    constructor
    · rw [arrest_rate, if_pos h]
      field_simp
    · rw [domestic_rate, if_pos h]
      field_simp

/-- Witness for C1 amended: the empty period gets rate 0; the two-row period
satisfies `rate * total = count * 100`. -/
theorem rates_zero_guarded_witness :
    (arrest_rate [] = 0 ∧ domestic_rate [] = 0) ∧
    arrest_rate pairRows * (total_crimes pairRows : ℚ) = (arrests_made pairRows : ℚ) * 100 :=
  ⟨(rates_zero_guarded []).1 rfl, ((rates_zero_guarded pairRows).2 (by decide)).1⟩

/-! ## C10: exact-'Y' flag matching and rate bounds -/

/-- A guarded percentage `a/t * 100` with `a ≤ t` lies in `[0, 100]`. -/
theorem pct_bounds (a t : Nat) (hle : a ≤ t) (hpos : 0 < t) :
    (0 : ℚ) ≤ (a : ℚ) / (t : ℚ) * 100 ∧ (a : ℚ) / (t : ℚ) * 100 ≤ 100 := by
  have ht : (0 : ℚ) < (t : ℚ) := by exact_mod_cast hpos
  constructor
  · positivity
  · have h1 : (a : ℚ) / (t : ℚ) ≤ 1 := by
      rw [div_le_one ht]
      exact_mod_cast hle
    nlinarith

/-- C10: a row is counted as an arrest (resp. domestic) exactly when its
`ARREST` (resp. `DOMESTIC`) field is the exact string `"Y"` — anything else,
including `"y"`, `"true"`, or a missing value, is the negative case — hence
both counts are bounded by the total and both rates lie in `[0, 100]`. -/
theorem flag_counts_exact_and_bounded (rows : List Row) (r : Row) :
    arrests_made (r :: rows) =
      (if r.arrest = some "Y" then arrests_made rows + 1 else arrests_made rows) ∧
    domestic_crimes (r :: rows) =
      (if r.domestic = some "Y" then domestic_crimes rows + 1 else domestic_crimes rows) ∧
    arrests_made rows ≤ total_crimes rows ∧
    domestic_crimes rows ≤ total_crimes rows ∧
    0 ≤ arrest_rate rows ∧ arrest_rate rows ≤ 100 ∧
    0 ≤ domestic_rate rows ∧ domestic_rate rows ≤ 100 := by
  have ha : arrests_made rows ≤ total_crimes rows := List.length_filter_le _ _
  have hd : domestic_crimes rows ≤ total_crimes rows := List.length_filter_le _ _
  refine ⟨?_, ?_, ha, hd, ?_⟩
  · by_cases h : r.arrest = some "Y" <;>
      simp [arrests_made, List.filter_cons, h]
  · by_cases h : r.domestic = some "Y" <;>
      simp [domestic_crimes, List.filter_cons, h]
  · by_cases hpos : 0 < total_crimes rows
    · have b1 := pct_bounds (arrests_made rows) (total_crimes rows) ha hpos
      have b2 := pct_bounds (domestic_crimes rows) (total_crimes rows) hd hpos
      rw [arrest_rate, domestic_rate, if_pos hpos, if_pos hpos]
      exact ⟨b1.1, b1.2, b2.1, b2.2⟩
    · rw [arrest_rate, domestic_rate, if_neg hpos, if_neg hpos]
      norm_num

/-! ## C4: top crime type is the mode; empty-period sentinels -/

/-- The candidate scan of `bestBy` returns a value whose multiplicity in `l`
dominates the initial candidate and every scanned value, and which is the
initial candidate or one of the scanned values. -/
theorem bestBy_spec (l : List String) (b : String) (vs : List String) :
    l.count b ≤ l.count (bestBy l b vs) ∧
    (∀ v ∈ vs, l.count v ≤ l.count (bestBy l b vs)) ∧
    (bestBy l b vs = b ∨ bestBy l b vs ∈ vs) := by
  induction vs generalizing b with
  | nil => simp [bestBy]
  | cons v vs ih =>
    simp only [bestBy]
    by_cases h : l.count b < l.count v
    · rw [if_pos h]
      obtain ⟨h1, h2, h3⟩ := ih v
      refine ⟨le_trans (le_of_lt h) h1, ?_, ?_⟩
      · intro w hw
        rcases List.mem_cons.mp hw with rfl | hw
        · exact h1
        · exact h2 w hw
      · rcases h3 with h3 | h3
        · exact Or.inr (by rw [h3]; exact List.mem_cons_self v vs)
        · exact Or.inr (List.mem_cons_of_mem v h3)
    · rw [if_neg h]
      obtain ⟨h1, h2, h3⟩ := ih b
      refine ⟨h1, ?_, ?_⟩
      · intro w hw
        rcases List.mem_cons.mp hw with rfl | hw
        · exact le_trans (Nat.le_of_not_lt h) h1
        · exact h2 w hw
      · rcases h3 with h3 | h3
        · exact Or.inl h3
        · exact Or.inr (List.mem_cons_of_mem v h3)

/-- C4: on a nonempty period the top crime type is a mode of
`primary_description` (it occurs in the data, and its multiplicity dominates
that of every row's crime type); on an empty period it is the `"N/A"`
sentinel and the unique-location count is `0`. -/
theorem top_crime_is_mode (rows : List Row) :
    (total_crimes rows = 0 →
      most_common_crime rows = "N/A" ∧ unique_locations rows = 0) ∧
    (0 < total_crimes rows →
      most_common_crime rows ∈ rows.map (·.primary_description) ∧
      ∀ r ∈ rows,
        (rows.map (·.primary_description)).count r.primary_description ≤
          (rows.map (·.primary_description)).count (most_common_crime rows)) := by
  constructor
  · intro h
    have : rows = [] := List.length_eq_zero.mp h
    subst this
    exact ⟨rfl, rfl⟩
  · intro h
    have hne : rows.map (·.primary_description) ≠ [] := by
      intro hc
      have := congrArg List.length hc
      simp only [List.length_map, List.length_nil] at this
      simp [total_crimes, this] at h
    obtain ⟨h1, h2, h3⟩ :=
      bestBy_spec (rows.map (·.primary_description))
        ((rows.map (·.primary_description)).headD "N/A")
        (rows.map (·.primary_description))
    have hmem : most_common_crime rows ∈ rows.map (·.primary_description) := by
      rcases h3 with h3 | h3
      · rw [most_common_crime, h3]
        cases hrows : rows.map (·.primary_description) with
        | nil => exact absurd hrows hne
        | cons x xs => simp
      · exact h3
    refine ⟨hmem, ?_⟩
    intro r hr
    exact h2 r.primary_description (List.mem_map_of_mem _ hr)

/-- Witness for C4: the sentinels on the empty period, and on the concrete
two-row period the top crime type occurs in the data. -/
theorem top_crime_is_mode_witness :
    (most_common_crime [] = "N/A" ∧ unique_locations [] = 0) ∧
    most_common_crime pairRows ∈ pairRows.map (·.primary_description) :=
  ⟨(top_crime_is_mode []).1 rfl, ((top_crime_is_mode pairRows).2 (by decide)).1⟩

/-! ## C3: geographic subset and fixed-seed sampling -/

/-- `getD` returns a list element or the default. -/
theorem getD_mem_of_default_mem {l : List Row} {i : Nat} {d : Row}
    (hd : d ∈ l) : l.getD i d ∈ l := by
  rw [List.getD_eq_getElem?_getD]
  cases h : l[i]? with
  | none => simpa using hd
  | some v =>
    simp only [Option.getD_some]
    exact List.getElem?_mem h

/-- The without-replacement sampler returns exactly
`min n (pool size)` rows. -/
theorem sampleAux_length (n s : Nat) (l : List Row) :
    (sampleAux n s l).length = min n l.length := by
  induction n generalizing s l with
  | zero => simp [sampleAux]
  | succ n ih =>
    cases l with
    | nil => simp [sampleAux]
    | cons x xs =>
      simp only [sampleAux, List.length_cons]
      rw [ih, List.length_eraseIdx]
      have hlt : lcg s % (xs.length + 1) < xs.length + 1 := Nat.mod_lt _ (by omega)
      simp only [List.length_cons, if_pos hlt]
      omega

/-- Every sampled row comes from the pool. -/
theorem sampleAux_subset (n s : Nat) (l : List Row) :
    ∀ r ∈ sampleAux n s l, r ∈ l := by
  induction n generalizing s l with
  | zero => simp [sampleAux]
  | succ n ih =>
    cases l with
    | nil => simp [sampleAux]
    | cons x xs =>
      intro r hr
      simp only [sampleAux] at hr
      rcases List.mem_cons.mp hr with h | h
      · rw [h]
        exact getD_mem_of_default_mem (List.mem_cons_self x xs)
      · exact (List.eraseIdx_sublist (x :: xs) _).subset (ih _ _ r h)

/-- C3: the geographic subset is exactly the filtered rows with both
coordinates present; the rendered subset has size `min 5000 (eligible count)`
and is drawn from the eligible rows (by a fixed-seed deterministic sampler,
so the same input always yields the same sample). -/
theorem geo_sample_size (rows : List Row) :
    (∀ r : Row, r ∈ geoEligible rows ↔
      r ∈ rows ∧ r.latitude.isSome ∧ r.longitude.isSome) ∧
    (map_df rows).length = min 5000 (geoEligible rows).length ∧
    (∀ r ∈ map_df rows, r ∈ geoEligible rows) := by
  refine ⟨?_, ?_, ?_⟩
  · intro r
    simp [geoEligible, List.mem_filter]
  · simp only [map_df]
    by_cases h : 5000 < (geoEligible rows).length
    · rw [if_pos h, sample42, sampleAux_length]
    · rw [if_neg h]
      omega
  · simp only [map_df]
    by_cases h : 5000 < (geoEligible rows).length
    · rw [if_pos h]
      exact sampleAux_subset 5000 42 _
    · rw [if_neg h]
      exact fun r hr => hr

/-- Witness for C3 at a one-row dataset with coordinates: the row is in the
rendered subset, hence eligible. -/
theorem geo_sample_size_witness :
    sampleRow ∈ map_df [sampleRow] ∧ sampleRow ∈ geoEligible [sampleRow] := by
  have hm : sampleRow ∈ map_df [sampleRow] := by decide
  exact ⟨hm, (geo_sample_size [sampleRow]).2.2 sampleRow hm⟩

/-! ## C6: weekday series in canonical Monday→Sunday order -/

/-- C6: for every input dataset — whatever the order of its rows and
whichever weekday buckets are observed — the weekly time-series buckets come
out sorted by canonical position Monday→Sunday, with no duplicate bucket,
and each bucket is an observed weekday carrying its exact row count
(in particular a positive one). -/
theorem weekday_series_canonical_order (rows : List Row) :
    List.Sorted dayLE (day_data rows) ∧
    ((day_data rows).map Prod.fst).Nodup ∧
    (∀ p ∈ day_data rows,
      p.1 ∈ rows.map (·.day_of_week) ∧
      p.2 = (rows.filter (fun r => r.day_of_week == p.1)).length ∧
      0 < p.2) := by
  have hperm : List.Perm (day_data rows)
      (((rows.map (·.day_of_week)).dedup).map
        (fun d => (d, (rows.filter (fun r => r.day_of_week == d)).length))) :=
    List.perm_insertionSort dayLE _
  refine ⟨List.sorted_insertionSort dayLE _, ?_, ?_⟩
  · have hfst : (((rows.map (·.day_of_week)).dedup).map
        (fun d => (d, (rows.filter (fun r => r.day_of_week == d)).length))).map Prod.fst
        = (rows.map (·.day_of_week)).dedup := by
      rw [List.map_map]
      exact List.map_id _
    rw [(hperm.map Prod.fst).nodup_iff, hfst]
    exact List.nodup_dedup _
  · intro p hp
    have hp' := hperm.mem_iff.mp hp
    obtain ⟨d, hd, hpd⟩ := List.mem_map.mp hp'
    have hdm : d ∈ rows.map (·.day_of_week) := List.mem_dedup.mp hd
    obtain ⟨r, hr, hrd⟩ := List.mem_map.mp hdm
    subst hpd
    refine ⟨hdm, rfl, ?_⟩
    have hrf : r ∈ rows.filter (fun r' => r'.day_of_week == d) := by
      rw [List.mem_filter]
      exact ⟨hr, by simp [hrd]⟩
    exact List.length_pos.mpr (List.ne_nil_of_mem hrf)

/-- Witness for C6: with rows listed Sunday, Monday, Sunday, the Monday
bucket appears in the series (and carries count 1); by the theorem it is an
observed weekday with its exact positive count. -/
theorem weekday_series_canonical_order_witness :
    ("Monday", 1) ∈ day_data twoDayRows ∧
    "Monday" ∈ twoDayRows.map (·.day_of_week) ∧
    (1 : Nat) = (twoDayRows.filter (fun r => r.day_of_week == "Monday")).length ∧
    0 < 1 := by
  have hm : (("Monday", 1) : String × Nat) ∈ day_data twoDayRows := by decide
  have h := (weekday_series_canonical_order twoDayRows).2.2 ("Monday", 1) hm
  exact ⟨hm, h.1, h.2.1, h.2.2⟩

/-! ## C5: load drops exactly the rows whose timestamp fails to parse -/

/-- Unfolding of `load_data` on a readable file. -/
theorem load_data_some (f : RawFile) :
    load_data (some f) =
      if date_col ∈ f.cols.map normalizeName then
        .ok (f.cols.map normalizeName,
          f.rows.filterMap (fun r => r.occurred_at.map (fun t => mkRow t r)))
      else .error "KeyError" := rfl

/-- The surviving rows are counted by the parse-success predicate. -/
theorem length_filterMap_mkRow (l : List RawRow) :
    (l.filterMap (fun r => r.occurred_at.map (fun t => mkRow t r))).length
      = (l.filter (fun r => r.occurred_at.isSome)).length := by
  induction l with
  | nil => rfl
  | cons r l ih =>
    cases h : r.occurred_at <;>
      simp [List.filterMap_cons, List.filter_cons, h, ih]

/-- C5: a successful load returns at most as many rows as the raw file, with
equality exactly when every raw timestamp parsed — the dropped rows are
precisely the parse failures. -/
theorem load_keeps_only_parsed (f : RawFile) (cols : List String)
    (rows : List Row) (h : load_data (some f) = .ok (cols, rows)) :
    rows.length ≤ f.rows.length ∧
    (rows.length = f.rows.length ↔ ∀ r ∈ f.rows, r.occurred_at.isSome) := by
  rw [load_data_some] at h
  by_cases hc : date_col ∈ f.cols.map normalizeName
  · rw [if_pos hc] at h
    simp only [Except.ok.injEq, Prod.mk.injEq] at h
    obtain ⟨-, hrows⟩ := h
    subst hrows
    rw [length_filterMap_mkRow]
    exact ⟨List.length_filter_le _ _, List.filter_length_eq_length⟩
  · rw [if_neg hc] at h
    simp at h

/-- Witness for C5: on the concrete two-row file with one bad timestamp, the
loaded row count is 1 ≤ 2 and inequality reflects the parse failure. -/
theorem load_keeps_only_parsed_witness :
    [mkRow ⟨3, 8⟩ goodRaw].length ≤ goodFile.rows.length ∧
    ([mkRow ⟨3, 8⟩ goodRaw].length = goodFile.rows.length ↔
      ∀ r ∈ goodFile.rows, r.occurred_at.isSome) :=
  load_keeps_only_parsed goodFile ["DATE OF OCCURRENCE", "PRIMARY DESCRIPTION"]
    [mkRow ⟨3, 8⟩ goodRaw] (by rfl)

/-! ## C7: month tokens absent from the data -/

/-- C7 counterexample: `"1999-12"` is not a month of the concrete dataset,
yet the monthly path raises no error of any kind — the selector never offers
the token, and the core filter applied to it silently returns the empty
subset (the monthly branch has no error channel at all). -/
theorem absent_month_silent_empty_counterexample :
    "1999-12" ∉ monthOptions [sampleRow] ∧
    monthlyFilter "1999-12" [sampleRow] = [] := ⟨by decide, by decide⟩

/-- C7 amended: the month selector offers exactly the month tokens present
in the dataset (so an absent token cannot be selected through the UI), and
the core filter applied to an absent token yields the empty subset silently
rather than failing with an error. -/
theorem month_selection_within_data (rows : List Row) (tok : String) :
    (∀ m : String, m ∈ monthOptions rows ↔ m ∈ rows.map (·.month)) ∧
    (tok ∉ rows.map (·.month) → monthlyFilter tok rows = []) := by
  constructor
  · intro m
    unfold monthOptions
    rw [List.mem_insertionSort]
    exact List.mem_dedup
  · intro h
    unfold monthlyFilter
    rw [List.filter_eq_nil_iff]
    intro r hr hc
    exact h (beq_iff_eq.mp hc ▸ List.mem_map_of_mem _ hr)

/-- Witness for C7 amended, on the one-row dataset: its own month is
offered, and the absent token filters to the empty subset. -/
theorem month_selection_within_data_witness :
    ("1970-01" ∈ monthOptions [sampleRow] ↔
      "1970-01" ∈ [sampleRow].map (·.month)) ∧
    monthlyFilter "1999-12" [sampleRow] = [] :=
  ⟨(month_selection_within_data [sampleRow] "1999-12").1 "1970-01",
   (month_selection_within_data [sampleRow] "1999-12").2 (by decide)⟩

/-! ## C8: which conditions actually fail the load -/

/-- C8 counterexample: a readable, structurally valid file in which zero
rows survive timestamp parsing loads successfully as an empty dataset — it
does not fail. -/
theorem load_zero_rows_ok_counterexample :
    (∀ r ∈ noParseFile.rows, r.occurred_at = none) ∧
    load_data (some noParseFile) = .ok (["DATE OF OCCURRENCE"], []) :=
  ⟨by decide, by rfl⟩

/-- C8 amended: the load fails (and the error is surfaced to the caller)
exactly when the source is missing/unreadable or the normalized header lacks
the timestamp column; when the file is readable and structurally valid it
always returns a dataset — even when zero rows survive parsing. -/
theorem load_error_conditions (f : RawFile) :
    load_data none = .error "FileNotFoundError" ∧
    (date_col ∉ f.cols.map normalizeName →
      load_data (some f) = .error "KeyError") ∧
    (date_col ∈ f.cols.map normalizeName →
      load_data (some f) = .ok (f.cols.map normalizeName,
        f.rows.filterMap (fun r => r.occurred_at.map (fun t => mkRow t r)))) := by
  refine ⟨rfl, ?_, ?_⟩
  · intro h
    rw [load_data_some, if_neg h]
  · intro h
    rw [load_data_some, if_pos h]

/-- Witness for C8 amended: the file without the timestamp column errors,
the all-unparsable file still loads. -/
theorem load_error_conditions_witness :
    load_data (some noDateColFile) = .error "KeyError" ∧
    load_data (some noParseFile) = .ok (noParseFile.cols.map normalizeName,
      noParseFile.rows.filterMap
        (fun r => r.occurred_at.map (fun t => mkRow t r))) :=
  ⟨(load_error_conditions noDateColFile).2.1 (by decide),
   (load_error_conditions noParseFile).2.2 (by decide)⟩

/-! ## C9: header normalization and duplicate headers -/

/-- Every whitespace character surviving the collapse is a single space. -/
theorem collapseWsAux_ws_space (b : Bool) (l : List Char) :
    ∀ c ∈ collapseWsAux b l, c.isWhitespace → c = ' ' := by
  induction l generalizing b with
  | nil => simp [collapseWsAux]
  | cons c rest ih =>
    intro x hx hw
    by_cases h : c.isWhitespace
    · cases b with
      | true =>
        simp only [collapseWsAux, if_pos h, if_true] at hx
        exact ih true x hx hw
      | false =>
        simp only [collapseWsAux, if_pos h, if_false] at hx
        rcases List.mem_cons.mp hx with rfl | hx
        · rfl
        · exact ih true x hx hw
    · simp only [collapseWsAux, if_neg h] at hx
      rcases List.mem_cons.mp hx with rfl | hx
      · exact absurd hw h
      · exact ih false x hx hw

/-- Inside a run (flag set) the collapsed list never starts with
whitespace. -/
theorem collapseWsAux_true_head (l : List Char) :
    ∀ x, (collapseWsAux true l).head? = some x → ¬x.isWhitespace := by
  induction l with
  | nil =>
    intro x hx
    simp [collapseWsAux] at hx
  | cons c rest ih =>
    intro x hx
    by_cases h : c.isWhitespace
    · have he : collapseWsAux true (c :: rest) = collapseWsAux true rest := by
        simp [collapseWsAux, h]
      rw [he] at hx
      exact ih x hx
    · have he : collapseWsAux true (c :: rest) = c :: collapseWsAux false rest := by
        simp [collapseWsAux, h]
      rw [he] at hx
      simp only [List.head?_cons, Option.some.injEq] at hx
      rw [← hx]
      exact h

/-- No two adjacent characters of the collapsed list are both whitespace:
internal whitespace runs have been collapsed. -/
theorem collapseWsAux_chain (b : Bool) (l : List Char) :
    (collapseWsAux b l).Chain' (fun a c => ¬(a.isWhitespace ∧ c.isWhitespace)) := by
  induction l generalizing b with
  | nil => simp [collapseWsAux]
  | cons c rest ih =>
    by_cases h : c.isWhitespace
    · cases b with
      | true =>
        have he : collapseWsAux true (c :: rest) = collapseWsAux true rest := by
          simp [collapseWsAux, h]
        rw [he]
        exact ih true
      | false =>
        have he : collapseWsAux false (c :: rest) = ' ' :: collapseWsAux true rest := by
          simp [collapseWsAux, h]
        rw [he, List.chain'_cons']
        refine ⟨?_, ih true⟩
        intro y hy hc
        rw [Option.mem_def] at hy
        exact collapseWsAux_true_head rest y hy hc.2
    · have he : collapseWsAux b (c :: rest) = c :: collapseWsAux false rest := by
        simp [collapseWsAux, h]
      rw [he, List.chain'_cons']
      refine ⟨?_, ih false⟩
      intro y hy hc
      exact h hc.1

/-- Specialization of the whitespace-character lemma to `collapseWs`. -/
theorem collapseWs_ws_space (l : List Char) :
    ∀ c ∈ collapseWs l, c.isWhitespace → c = ' ' :=
  collapseWsAux_ws_space false l

/-- Specialization of the collapsed-runs lemma to `collapseWs`. -/
theorem collapseWs_chain (l : List Char) :
    (collapseWs l).Chain' (fun a b => ¬(a.isWhitespace ∧ b.isWhitespace)) :=
  collapseWsAux_chain false l

/-- C9 counterexample: two headers that collide after normalization are
accepted silently — the load succeeds and keeps both duplicate labels; no
rejection, no flagging. -/
theorem dup_headers_not_rejected_counterexample :
    normalizeName "A  B" = normalizeName "A B" ∧
    load_data (some dupFile) = .ok (["A B", "A B", "DATE OF OCCURRENCE"], []) :=
  ⟨by decide, by rfl⟩

/-- C9 amended: the load normalizes every header exactly once — trimming and
collapsing whitespace so the result carries only single interior spaces —
and headers that become duplicates after normalization are silently retained
as duplicate labels: the load neither rejects nor flags (nor merges) them. -/
theorem headers_normalized_once_dups_kept (f : RawFile) (s : String)
    (h : date_col ∈ f.cols.map normalizeName) :
    load_data (some f) = .ok (f.cols.map normalizeName,
      f.rows.filterMap (fun r => r.occurred_at.map (fun t => mkRow t r))) ∧
    (f.cols.map normalizeName).length = f.cols.length ∧
    (∀ c ∈ (normalizeName s).data, c.isWhitespace → c = ' ') ∧
    (normalizeName s).data.Chain' (fun a b => ¬(a.isWhitespace ∧ b.isWhitespace)) ∧
    normalizeName "  DATE   OF  OCCURRENCE  " = date_col := by
  refine ⟨?_, by simp, collapseWs_ws_space _, collapseWs_chain _, by decide⟩
  rw [load_data_some, if_pos h]

/-- Witness for C9 amended at the duplicate-header file: the load succeeds
with all three labels kept. -/
theorem headers_normalized_once_dups_kept_witness :
    load_data (some dupFile) = .ok (dupFile.cols.map normalizeName,
      dupFile.rows.filterMap
        (fun r => r.occurred_at.map (fun t => mkRow t r))) ∧
    (dupFile.cols.map normalizeName).length = dupFile.cols.length :=
  ⟨(headers_normalized_once_dups_kept dupFile "x" (by decide)).1,
   (headers_normalized_once_dups_kept dupFile "x" (by decide)).2.1⟩
